import Mathlib

/-!
# Verification of the MRPA recommendation-and-enrichment pipeline

Shallow embedding of the core pipeline of `src/MRPA.py`:

* `generate_recommendations` (Gemini response parsing, lines 493-534),
* `fetch_imdb_info` (OMDb metadata resolution, lines 538-575),
* `NetworkWorker.run` (page orchestration, lines 434-451).

Python strings are modelled as `List Char`.  The two network backends
(Gemini and OMDb) are modelled as oracle parameters: an `Except` value
is the outcome of one HTTP call, with `.error` standing for a raised
transport/parsing exception and `.ok` for a decoded JSON payload.
API keys are `Option Str`: `none` is the `MISSING_API_KEY` sentinel
(`None` in the source), `some k` a configured key.
-/

namespace MRPA

/-- A Python string, modelled as its list of characters. -/
abbrev Str := List Char

/-- Characters stripped by Python's `str.strip()` (Unicode whitespace;
we list the whitespace code points that `str.strip()` removes in the
Basic Multilingual Plane ranges relevant here, including NBSP `\xa0`,
U+2028 and U+2029). -/
def pyWsChars : Str :=
  [' ', '\t', '\n', '\r', '\u000b', '\u000c',
   '\u001c', '\u001d', '\u001e', '\u001f',
   '\u0085', ' ', ' ', ' ']

/-- Whitespace test of Python `str.strip()`. -/
def isPyWs (c : Char) : Bool := c ∈ pyWsChars

/-- Drop leading whitespace. -/
def pyStripLeft (l : Str) : Str := l.dropWhile isPyWs

/-- Drop trailing whitespace. -/
def pyStripRight (l : Str) : Str := (l.reverse.dropWhile isPyWs).reverse

/-- Python `str.strip()`: drop leading and trailing whitespace. -/
def pyStrip (l : Str) : Str := pyStripRight (pyStripLeft l)

/-- Line-break characters recognised by Python `str.splitlines()`. -/
def isLineBreak (c : Char) : Bool :=
  c = '\n' || c = '\r' || c = '\u000b' || c = '\u000c' ||
  c = '\u001c' || c = '\u001d' || c = '\u001e' ||
  c = '\u0085' || c = ' ' || c = ' '

/-- Worker for `pySplitlines`; `acc` holds the current line reversed. -/
def splitlinesAux (acc : Str) : Str → List Str
  | [] => if acc = [] then [] else [acc.reverse]
  | '\r' :: '\n' :: rest => acc.reverse :: splitlinesAux [] rest
  | c :: rest =>
    if isLineBreak c then acc.reverse :: splitlinesAux [] rest
    else splitlinesAux (c :: acc) rest

/-- Python `str.splitlines()`: `"\r\n"` is a single break and a trailing
break produces no extra empty line. -/
def pySplitlines (l : Str) : List Str := splitlinesAux [] l

/-- Python `str.replace('\xa0', ' ')`: single-character replacement. -/
def replaceNbsp (l : Str) : Str :=
  l.map (fun c => if c = ' ' then ' ' else c)

/-- Fuel-driven digit accumulator behind `natChars` (structural recursion
on the fuel so that the kernel can evaluate it; the fuel `n + 1` always
suffices). -/
def natCharsCore : Nat → Nat → Str → Str
  | 0, _, acc => acc
  | fuel + 1, n, acc =>
    if n < 10 then Char.ofNat (48 + n) :: acc
    else natCharsCore fuel (n / 10) (Char.ofNat (48 + n % 10) :: acc)

/-- The decimal digit string of `n`, as produced by Python `f"{i}"`. -/
def natChars (n : Nat) : Str := natCharsCore (n + 1) n []

/-- The list-marker prefixes tried by the parser, in source order:
`[f"{i}." for i in range(1, count + 1)] + ['-', '•', '*']`. -/
def seps (count : Nat) : List Str :=
  ((List.range' 1 count).map (fun i => natChars i ++ ['.'])) ++
    [['-'], ['•'], ['*']]

/-- The first marker in `ss` that is a prefix of `l` (the `for sep in ...:
if temp_l.startswith(sep): ... break` scan). -/
def findSep (l : Str) : List Str → Option Str
  | [] => none
  | s :: ss => if s.isPrefixOf l then some s else findSep l ss

/-- One iteration of the marker-stripping loop body: match markers against
`temp_l = l.strip()` and, on a hit, `l = l[len(sep):].strip()`. -/
def stripMarkerLine (count : Nat) (l : Str) : Str :=
  match findSep (pyStrip l) (seps count) with
  | some s => pyStrip (l.drop s.length)
  | none => l

/-- Per-line cleanup: marker stripping followed by
`l.strip().replace('\xa0', ' ').strip()`. -/
def cleanLine (count : Nat) (l : Str) : Str :=
  pyStrip (replaceNbsp (pyStrip (stripMarkerLine count l)))

/-- `[l.strip() for l in raw.splitlines() if l.strip()]`. -/
def nonBlankLines (raw : Str) : List Str :=
  (pySplitlines raw).filterMap
    (fun l => let s := pyStrip l; if s = [] then none else some s)

/-- The title-accumulation loop: append each non-empty cleaned line and
break as soon as `len(titles) >= count` (checked after the append). -/
def collectTitles (count : Nat) : List Str → Nat → List Str
  | [], _ => []
  | l :: rest, acc =>
    if cleanLine count l = [] then collectTitles count rest acc
    else if count ≤ acc + 1 then [cleanLine count l]
    else cleanLine count l :: collectTitles count rest (acc + 1)

/-- The whole response parser of `generate_recommendations`. -/
def parseTitles (count : Nat) (raw : Str) : List Str :=
  collectTitles count (nonBlankLines raw) 0

/-- Message of the `RuntimeError` raised when the Gemini key is missing. -/
def credentialMissingMsg : Str :=
  "Gemini API Key is missing. Cannot generate recommendations.".data

/-- Message of the `RuntimeError` raised when no titles were parsed. -/
def emptyResultMsg : Str := "No titles parsed from Gemini response.".data

/-- `generate_recommendations(query_text, search_type, excluded_ids)`.
`geminiKey` is the `GEMINI_API_KEY` global, `count` the
`GLOBAL_SUGGESTION_COUNT` global (clamped to `[1, 20]` by the settings
loader).  `backend` is the outcome of the single
`direct_gemini_api_call(prompt)`; the key check happens before that call,
so on a missing key the result does not depend on `backend`. -/
def generate_recommendations (geminiKey : Option Str) (count : Nat)
    (backend : Except Str Str) : Except Str (List Str) :=
  match geminiKey with
  | none => .error credentialMissingMsg
  | some _ =>
    match backend with
    | .error e => .error e
    | .ok raw =>
      let titles := parseTitles count raw
      if titles = [] then .error emptyResultMsg else .ok titles

/-- The decoded OMDb JSON payload: `data.get(k)` is field access on an
`Option Str` field, `none` when the key is absent. -/
structure OmdbData where
  Response : Option Str := none
  Title : Option Str := none
  Year : Option Str := none
  /-- The `'Type'` JSON field (`Type` is a Lean keyword). -/
  TypeF : Option Str := none
  imdbRating : Option Str := none
  Genre : Option Str := none
  Plot : Option Str := none
  Director : Option Str := none
  Poster : Option Str := none
  imdbID : Option Str := none
  deriving DecidableEq, Repr

/-- The normalized info record built by `fetch_imdb_info` (a Python dict
in the source, with these fixed keys). -/
structure MediaInfo where
  title : Option Str
  year : Option Str
  kind : Option Str
  rating : Option Str
  genres : List Str
  plot : Option Str
  directors : List Str
  cover_url : Option Str
  imdb_id : Option Str
  deriving DecidableEq, Repr

/-- Python `s.split(', ')` (the separator is the exact two-character
string comma-space): leftmost non-overlapping splits, `''` yields `['']`. -/
def splitCommaSpace : Str → List Str
  | [] => [[]]
  | ',' :: ' ' :: rest => [] :: splitCommaSpace rest
  | c :: rest =>
    match splitCommaSpace rest with
    | [] => [[c]]
    | g :: gs => (c :: g) :: gs

/-- Python `title.replace(' ', '')`: remove every ASCII space. -/
def removeSpaces (s : Str) : Str := s.filter (fun c => c ≠ ' ')

/-- The degraded record synthesized when `OMDB_API_KEY is MISSING_API_KEY`. -/
def degradedInfo (title : Str) : MediaInfo where
  title := some title
  year := some "N/A".data
  kind := some "N/A".data
  rating := some "N/A".data
  genres := ["API Key Missing".data]
  plot := some "OMDB API Key is missing, unable to fetch movie metadata.".data
  directors := ["N/A".data]
  cover_url := none
  imdb_id := some (removeSpaces title)

/-- `fetch_imdb_info(title)`.  `omdbKey` is the `OMDB_API_KEY` global;
`backend title` is the outcome of the whole guarded block
`requests.get → raise_for_status → json()`: `.error` when any exception
is raised in it (transport error, bad status, undecodable body) and
`.ok data` when it produced a decoded payload. -/
def fetch_imdb_info (omdbKey : Option Str) (backend : Str → Except Str OmdbData)
    (title : Str) : Option MediaInfo :=
  match omdbKey with
  | none => some (degradedInfo title)
  | some _ =>
    match backend title with
    | .error _ => none
    | .ok data =>
      if data.Response = some "False".data then none
      else some
        { title := data.Title
          year := data.Year
          kind := data.TypeF
          rating := data.imdbRating
          genres := splitCommaSpace (data.Genre.getD [])
          plot := data.Plot
          directors := splitCommaSpace (data.Director.getD [])
          cover_url := if data.Poster = some "N/A".data then none else data.Poster
          imdb_id := data.imdbID }

/-- Truthiness of `info.get('imdb_id')`: `None` and `''` are falsy. -/
def truthyId : Option Str → Bool
  | none => false
  | some s => s ≠ []

/-- The enrichment loop of `NetworkWorker.run`: for each title resolve it
and append the record when
`info and info.get('imdb_id') and info.get('imdb_id') not in self.excluded_ids`. -/
def resolveLoop (omdbKey : Option Str) (backend : Str → Except Str OmdbData)
    (excluded_ids : List Str) : List Str → List MediaInfo
  | [] => []
  | t :: ts =>
    match fetch_imdb_info omdbKey backend t with
    | none => resolveLoop omdbKey backend excluded_ids ts
    | some info =>
      match info.imdb_id with
      | none => resolveLoop omdbKey backend excluded_ids ts
      | some s =>
        if s ≠ [] ∧ s ∉ excluded_ids then
          info :: resolveLoop omdbKey backend excluded_ids ts
        else resolveLoop omdbKey backend excluded_ids ts

/-- `NetworkWorker.run`.  `pre_defined_titles` models the constructor
argument (`[]` for both `None` and an empty list, which are equally falsy
in `if self.pre_defined_titles:`); `excluded_ids` is already defaulted
(`excluded_ids or []`).  The emitted signal is the result: `finished`
becomes `.ok results`, the `except` handler's `error` becomes `.error`. -/
def NetworkWorker.run (geminiKey omdbKey : Option Str) (count : Nat)
    (geminiBackend : Except Str Str) (omdbBackend : Str → Except Str OmdbData)
    (pre_defined_titles : List Str) (excluded_ids : List Str) :
    Except Str (List MediaInfo) :=
  let titlesE : Except Str (List Str) :=
    if pre_defined_titles ≠ [] then .ok pre_defined_titles
    else generate_recommendations geminiKey count geminiBackend
  match titlesE with
  | .error e => .error e
  | .ok titles => .ok (resolveLoop omdbKey omdbBackend excluded_ids titles)

/-!
## Spec-side parser

A second parser definition following the natural-language specification,
step by step (§4.1 "Response parsing"), to be compared with the
code-derived `parseTitles`.
-/

/-- Spec step 2: the marker list, numeric markers `"1."` through
`"<count>."` in ascending numeric order first, then the bullets. -/
def specMarkers (count : Nat) : List Str :=
  ((List.range' 1 count).map (fun i => natChars i ++ ['.'])) ++
    [['-'], ['•'], ['*']]

/-- Spec step 2: strip the first matching marker prefix, if any. -/
def specStripMarker (count : Nat) (l : Str) : Str :=
  match (specMarkers count).find? (fun s => s.isPrefixOf l) with
  | some s => l.drop s.length
  | none => l

/-- Spec steps 2-3: strip one marker, trim, normalize non-breaking
spaces to regular spaces, trim again. -/
def specClean (count : Nat) (l : Str) : Str :=
  pyStrip (replaceNbsp (pyStrip (specStripMarker count l)))

/-- Spec steps 1-5: the cleaned text of each non-blank line, in original
order, dropping lines that become empty, truncated to `count` titles. -/
def specParse (count : Nat) (raw : Str) : List Str :=
  (((nonBlankLines raw).map (specClean count)).filter (fun t => t ≠ [])).take count

/-!
## Auxiliary definitions for stating and witnessing the claims
-/

/-- Joining with the separator `", "` — the left inverse used to give
`splitCommaSpace` its meaning. -/
def joinCommaSpace : List Str → Str
  | [] => []
  | [x] => x
  | x :: xs => x ++ ',' :: ' ' :: joinCommaSpace xs

/-- ASCII decimal digit test (`'0'` to `'9'`). -/
def isDig (c : Char) : Bool := 48 ≤ c.toNat && c.toNat ≤ 57

/-- Numeric value of a decimal digit string. -/
def natVal (s : Str) : Nat := s.foldl (fun a c => 10 * a + (c.toNat - 48)) 0

/-- A constant OMDb backend resolving every title to id `tt1375666`
(used to exercise within-batch duplicate resolution). -/
def dupBackend : Str → Except Str OmdbData := fun _ =>
  .ok { Response := some "True".data, imdbID := some "tt1375666".data }

/-- The record `fetch_imdb_info` builds from `dupBackend`'s payload. -/
def dupRecord : MediaInfo where
  title := none
  year := none
  kind := none
  rating := none
  genres := [[]]
  plot := none
  directors := [[]]
  cover_url := none
  imdb_id := some "tt1375666".data

/-- A backend whose single lookup raises a transport failure. -/
def timeoutBackend : Str → Except Str OmdbData := fun _ =>
  .error "requests.exceptions.Timeout".data

/-- A successful lookup payload with two genres, two directors and the
`"N/A"` poster sentinel. -/
def matrixData : OmdbData where
  Response := some "True".data
  Title := some "The Matrix".data
  Genre := some "Action, Sci-Fi".data
  Director := some "Lana Wachowski, Lilly Wachowski".data
  Poster := some "N/A".data
  imdbID := some "tt0133093".data

/-- A backend answering every lookup with `matrixData`. -/
def matrixBackend : Str → Except Str OmdbData := fun _ => .ok matrixData

/-- A successful lookup payload with no `Genre` key but with a
`Director`. -/
def noGenreData : OmdbData where
  Response := some "True".data
  Title := some "Pi".data
  Director := some "Darren Aronofsky".data
  imdbID := some "tt0138704".data

/-- A backend answering every lookup with `noGenreData`. -/
def noGenreBackend : Str → Except Str OmdbData := fun _ => .ok noGenreData

/-- A successful lookup payload with a `Genre` but no `Director` key. -/
def noDirectorData : OmdbData where
  Response := some "True".data
  Title := some "Moon".data
  Genre := some "Sci-Fi, Drama".data
  imdbID := some "tt1182345".data

/-- A backend answering every lookup with `noDirectorData`. -/
def noDirectorBackend : Str → Except Str OmdbData := fun _ => .ok noDirectorData

/-!
## Library of small facts about the string primitives
-/

theorem dropWhile_idem (p : Char → Bool) (l : List Char) :
    (l.dropWhile p).dropWhile p = l.dropWhile p := by
  induction l with
  | nil => rfl
  | cons c l ih =>
    by_cases h : p c
    · simp only [List.dropWhile_cons, h, if_true]
      exact ih
    · simp only [List.dropWhile_cons, h, if_false, Bool.false_eq_true]

theorem dropWhile_length_le (p : Char → Bool) (l : List Char) :
    (l.dropWhile p).length ≤ l.length := by
  induction l with
  | nil => simp
  | cons c t ih =>
    by_cases h : p c
    · rw [List.dropWhile_cons, if_pos h]
      simp only [List.length_cons]
      omega
    · rw [List.dropWhile_cons, if_neg h]

theorem dropWhile_eq_self_of_prefix {p : Char → Bool} {m l : List Char}
    (hp : m <+: l) (hl : l.dropWhile p = l) : m.dropWhile p = m := by
  cases m with
  | nil => rfl
  | cons c m' =>
    obtain ⟨t, ht⟩ := hp
    subst ht
    by_cases h : p c
    · exfalso
      rw [show (c :: m') ++ t = c :: (m' ++ t) from rfl, List.dropWhile_cons,
        if_pos h] at hl
      have h1 := dropWhile_length_le p (m' ++ t)
      have h2 := congrArg List.length hl
      simp only [List.length_cons, List.length_append] at h1 h2
      omega
    · rw [List.dropWhile_cons, if_neg h]

theorem pyStripRight_prefix (l : Str) : pyStripRight l <+: l := by
  have h := List.dropWhile_suffix (l := l.reverse) isPyWs
  have h2 := List.reverse_prefix.mpr h
  simpa [pyStripRight] using h2

theorem pyStripRight_idem (l : Str) : pyStripRight (pyStripRight l) = pyStripRight l := by
  unfold pyStripRight
  rw [List.reverse_reverse, dropWhile_idem]

theorem pyStripLeft_pyStrip (l : Str) : pyStripLeft (pyStrip l) = pyStrip l := by
  have hpre : pyStrip l <+: pyStripLeft l := pyStripRight_prefix (pyStripLeft l)
  exact dropWhile_eq_self_of_prefix hpre (dropWhile_idem isPyWs l)

theorem pyStrip_idem (l : Str) : pyStrip (pyStrip l) = pyStrip l := by
  show pyStripRight (pyStripLeft (pyStrip l)) = pyStrip l
  rw [pyStripLeft_pyStrip]
  show pyStripRight (pyStripRight (pyStripLeft l)) = pyStrip l
  rw [pyStripRight_idem]
  rfl

theorem findSep_eq_find? (l : Str) (ss : List Str) :
    findSep l ss = ss.find? (fun s => s.isPrefixOf l) := by
  induction ss with
  | nil => rfl
  | cons s ss ih =>
    by_cases h : s.isPrefixOf l
    · rw [List.find?_cons_of_pos (p := fun s => List.isPrefixOf s l) ss h]
      simp only [findSep, if_pos h]
    · rw [List.find?_cons_of_neg (p := fun s => List.isPrefixOf s l) ss h]
      simp only [findSep, if_neg h]
      exact ih

theorem cleanLine_eq_specClean (count : Nat) (l : Str) (h : pyStrip l = l) :
    cleanLine count l = specClean count l := by
  unfold cleanLine specClean stripMarkerLine specStripMarker seps specMarkers
  rw [h, findSep_eq_find?]
  cases (((List.range' 1 count).map (fun i => natChars i ++ ['.'])) ++
      [['-'], ['•'], ['*']]).find? (fun s => s.isPrefixOf l) with
  | none => rfl
  | some s => simp only [pyStrip_idem]

theorem nonBlankLines_stripped (raw : Str) :
    ∀ x ∈ nonBlankLines raw, pyStrip x = x ∧ x ≠ [] := by
  intro x hx
  unfold nonBlankLines at hx
  rw [List.mem_filterMap] at hx
  obtain ⟨l, _, hfx⟩ := hx
  simp only at hfx
  by_cases hnil : pyStrip l = []
  · rw [if_pos hnil] at hfx
    exact absurd hfx (by simp)
  · rw [if_neg hnil] at hfx
    cases hfx
    exact ⟨pyStrip_idem l, hnil⟩

theorem collectTitles_eq_take (count : Nat) :
    ∀ (ls : List Str) (acc : Nat), acc < count →
      collectTitles count ls acc =
        ((ls.map (cleanLine count)).filter (fun t => t ≠ [])).take (count - acc) := by
  intro ls
  induction ls with
  | nil => intro acc _; simp [collectTitles]
  | cons l rest ih =>
    intro acc hacc
    by_cases hct : cleanLine count l = []
    · rw [show collectTitles count (l :: rest) acc =
          (if cleanLine count l = [] then collectTitles count rest acc
           else if count ≤ acc + 1 then [cleanLine count l]
           else cleanLine count l :: collectTitles count rest (acc + 1)) from rfl]
      rw [if_pos hct, List.map_cons, List.filter_cons_of_neg (by simp [hct])]
      exact ih acc hacc
    · rw [show collectTitles count (l :: rest) acc =
          (if cleanLine count l = [] then collectTitles count rest acc
           else if count ≤ acc + 1 then [cleanLine count l]
           else cleanLine count l :: collectTitles count rest (acc + 1)) from rfl]
      rw [if_neg hct, List.map_cons, List.filter_cons_of_pos (by simp [hct])]
      by_cases hstop : count ≤ acc + 1
      · have hcnt : count - acc = 1 := by omega
        rw [if_pos hstop, hcnt]
        simp
      · rw [if_neg hstop]
        have h1 : count - acc = (count - (acc + 1)) + 1 := by omega
        rw [h1, List.take_succ_cons, ih (acc + 1) (by omega)]

theorem collectTitles_nil_of_all_empty (count : Nat) :
    ∀ (ls : List Str) (acc : Nat), (∀ x ∈ ls, cleanLine count x = []) →
      collectTitles count ls acc = [] := by
  intro ls
  induction ls with
  | nil => intro acc _; rfl
  | cons l rest ih =>
    intro acc h
    have hl : cleanLine count l = [] := h l (by simp)
    rw [show collectTitles count (l :: rest) acc =
        (if cleanLine count l = [] then collectTitles count rest acc
         else if count ≤ acc + 1 then [cleanLine count l]
         else cleanLine count l :: collectTitles count rest (acc + 1)) from rfl]
    rw [if_pos hl]
    exact ih acc (fun x hx => h x (by simp [hx]))

/-!
## Claims about the parser
-/

/-- **C1.** For every response text and every count in force (the
settings loader clamps `GLOBAL_SUGGESTION_COUNT` to `[1, 20]`, so
`1 ≤ count`), the parser of `generate_recommendations` returns exactly
the cleaned text of each non-blank line, in original line order,
truncated to at most `count` titles, where the per-line cleanup strips
at most one leading list marker (numeric markers first, ascending, then
bullets; only the first matching prefix), trims, normalizes non-breaking
spaces, trims again, and empty results are dropped — i.e. the code
parser coincides with the spec-side parser `specParse`. -/
theorem C1_parser_matches_spec (count : Nat) (raw : Str) (hc : 1 ≤ count) :
    parseTitles count raw = specParse count raw := by
  unfold parseTitles specParse
  rw [collectTitles_eq_take count (nonBlankLines raw) 0 (by omega)]
  rw [List.map_congr_left
    (fun x hx => cleanLine_eq_specClean count x (nonBlankLines_stripped raw x hx).1)]
  simp

/-- Witness for C1 at a concrete response mixing all three marker kinds. -/
theorem C1_witness :
    1 ≤ 3 ∧ parseTitles 3 "1. Inception\n- Arrival\nHer\n4. Dune\n".data =
      specParse 3 "1. Inception\n- Arrival\nHer\n4. Dune\n".data :=
  ⟨by decide, C1_parser_matches_spec 3 _ (by decide)⟩

/-- **C4.** A response whose lines are all blank, or all become empty
after marker-stripping and cleanup, makes `generate_recommendations`
fail with the `EmptyResult` error rather than return an empty list. -/
theorem C4_empty_result (geminiKey : Str) (count : Nat) (raw : Str)
    (h : ∀ l ∈ pySplitlines raw, cleanLine count (pyStrip l) = []) :
    generate_recommendations (some geminiKey) count (.ok raw) =
      .error emptyResultMsg := by
  have hz : parseTitles count raw = [] := by
    unfold parseTitles
    apply collectTitles_nil_of_all_empty
    intro x hx
    unfold nonBlankLines at hx
    rw [List.mem_filterMap] at hx
    obtain ⟨l, hl, hfx⟩ := hx
    by_cases hnil : pyStrip l = []
    · simp only at hfx
      rw [if_pos hnil] at hfx
      exact absurd hfx (by simp)
    · simp only at hfx
      rw [if_neg hnil] at hfx
      cases hfx
      exact h l hl
  rw [show generate_recommendations (some geminiKey) count (.ok raw) =
      (if parseTitles count raw = [] then .error emptyResultMsg
       else .ok (parseTitles count raw)) from rfl]
  rw [hz]
  rfl

/-- Witness for C4 at a response of blank, bullet-only and numeric-only
lines. -/
theorem C4_witness :
    (∀ l ∈ pySplitlines "  \n1. \n- \n•\n".data,
      cleanLine 10 (pyStrip l) = []) ∧
    generate_recommendations (some "gkey".data) 10
      (.ok "  \n1. \n- \n•\n".data) = .error emptyResultMsg :=
  ⟨by decide, C4_empty_result "gkey".data 10 _ (by decide)⟩

/-!
## Claims about the orchestrator (`NetworkWorker.run`)
-/

theorem resolveLoop_not_excluded (omdbKey : Option Str)
    (backend : Str → Except Str OmdbData) (excluded_ids : List Str) :
    ∀ (ts : List Str), ∀ info ∈ resolveLoop omdbKey backend excluded_ids ts,
      ∀ s, info.imdb_id = some s → s ∉ excluded_ids := by
  intro ts
  induction ts with
  | nil => intro info h; exact absurd h (by simp [resolveLoop])
  | cons t ts ih =>
    intro info hinfo s hs
    unfold resolveLoop at hinfo
    split at hinfo
    · exact ih info hinfo s hs
    · split at hinfo
      · exact ih info hinfo s hs
      · split at hinfo
        · rename_i r hfetch rid hrid hcond
          rcases List.mem_cons.mp hinfo with heq | hmem
          · subst heq
            rw [hrid] at hs
            cases hs
            exact hcond.2
          · exact ih info hmem s hs
        · exact ih info hinfo s hs

/-- **C2.** For every exclusion set, every record in a successful
`NetworkWorker.run` page has an `imdb_id` outside that exclusion set:
the pipeline never returns a record whose id was already excluded. -/
theorem C2_exclusion_invariant (geminiKey omdbKey : Option Str) (count : Nat)
    (geminiBackend : Except Str Str) (omdbBackend : Str → Except Str OmdbData)
    (pre_defined_titles excluded_ids : List Str) (results : List MediaInfo)
    (hrun : NetworkWorker.run geminiKey omdbKey count geminiBackend omdbBackend
      pre_defined_titles excluded_ids = .ok results) :
    ∀ info ∈ results, ∀ s, info.imdb_id = some s → s ∉ excluded_ids := by
  unfold NetworkWorker.run at hrun
  cases htitles : (if pre_defined_titles ≠ [] then Except.ok pre_defined_titles
      else generate_recommendations geminiKey count geminiBackend) with
  | error e => rw [htitles] at hrun; exact absurd hrun (by simp)
  | ok titles =>
    rw [htitles] at hrun
    simp only [Except.ok.injEq] at hrun
    subst hrun
    exact resolveLoop_not_excluded omdbKey omdbBackend excluded_ids titles

/-- Witness for C2: a concrete page (degraded resolver, one title) whose
single record's id is checked against the exclusion set. -/
theorem C2_witness :
    NetworkWorker.run (some "g".data) none 10 (.ok "1. Blade Runner\n".data)
      (fun _ => .error "unused".data) [] ["tt0083658".data] =
      .ok [degradedInfo "Blade Runner".data] ∧
    "BladeRunner".data ∉ ["tt0083658".data] := by
  constructor
  · rfl
  · exact C2_exclusion_invariant (some "g".data) none 10
      (.ok "1. Blade Runner\n".data) (fun _ => .error "unused".data) []
      ["tt0083658".data] [degradedInfo "Blade Runner".data] (by rfl)
      (degradedInfo "Blade Runner".data) (by simp)
      "BladeRunner".data (by rfl)

/-- **C3 counterexample.** The Generator returns
`"1. Inception\n2. Inception\n"`, both candidates resolve to the same id
`tt1375666`, and the exclusion set is empty: `NetworkWorker.run` returns
a page with TWO records carrying that id — output ids are not pairwise
distinct, because `excluded_ids` is never extended with ids already
emitted within the current page. -/
theorem C3_counterexample :
    (NetworkWorker.run (some "g".data) (some "o".data) 10
        (.ok "1. Inception\n2. Inception\n".data) dupBackend [] []).map
        (List.map MediaInfo.imdb_id) =
      .ok [some "tt1375666".data, some "tt1375666".data] ∧
    ¬ List.Pairwise (fun a b => a ≠ b)
      [some "tt1375666".data, some "tt1375666".data] := by
  constructor
  · rfl
  · decide

/-- **C3 amended.** Within one batch, output ids are only guaranteed to
avoid the exclusion set; duplicates inside the batch are NOT filtered
against each other: if the same title occurs twice and resolves to a
truthy id outside the exclusion set, the page contains two records for
that id, one per occurrence. -/
theorem C3_amended_duplicates_kept (omdbKey : Option Str)
    (backend : Str → Except Str OmdbData) (excluded_ids : List Str)
    (t : Str) (ts : List Str) (info : MediaInfo) (s : Str)
    (hfetch : fetch_imdb_info omdbKey backend t = some info)
    (hid : info.imdb_id = some s) (hne : s ≠ []) (hnot : s ∉ excluded_ids) :
    resolveLoop omdbKey backend excluded_ids (t :: t :: ts) =
      info :: info :: resolveLoop omdbKey backend excluded_ids ts := by
  simp only [resolveLoop, hfetch, hid]
  rw [if_pos ⟨hne, hnot⟩, if_pos ⟨hne, hnot⟩]

/-- Witness for the amended C3 at the concrete duplicated batch. -/
theorem C3_witness :
    fetch_imdb_info (some "o".data) dupBackend "Inception".data =
        some dupRecord ∧
      dupRecord.imdb_id = some "tt1375666".data ∧
      "tt1375666".data ≠ ([] : Str) ∧
      "tt1375666".data ∉ ([] : List Str) ∧
      resolveLoop (some "o".data) dupBackend []
        ["Inception".data, "Inception".data] = [dupRecord, dupRecord] :=
  ⟨rfl, rfl, by decide, by simp,
    C3_amended_duplicates_kept (some "o".data) dupBackend [] "Inception".data
      [] dupRecord "tt1375666".data rfl rfl (by decide) (by simp)⟩

/-- **C5.** When no Gemini credential is configured
(`GEMINI_API_KEY is MISSING_API_KEY`), `generate_recommendations` fails
with the CredentialMissing error whatever the backend would have
answered (the check precedes the request), and `NetworkWorker.run`
(with no pre-supplied titles) propagates exactly that error as a
whole-page failure. -/
theorem C5_credential_missing (omdbKey : Option Str) (count : Nat)
    (geminiBackend : Except Str Str) (omdbBackend : Str → Except Str OmdbData)
    (excluded_ids : List Str) :
    generate_recommendations none count geminiBackend =
        .error credentialMissingMsg ∧
      NetworkWorker.run none omdbKey count geminiBackend omdbBackend []
        excluded_ids = .error credentialMissingMsg := by
  constructor
  · rfl
  · rfl

/-!
## Claims about the resolver (`fetch_imdb_info`)
-/

theorem joinCommaSpace_cons_cons (c : Char) (g : Str) (gs : List Str) :
    joinCommaSpace ((c :: g) :: gs) = c :: joinCommaSpace (g :: gs) := by
  cases gs <;> rfl

theorem splitCommaSpace_ne_nil (l : Str) : splitCommaSpace l ≠ [] := by
  induction l using splitCommaSpace.induct with
  | case1 => simp [splitCommaSpace]
  | case2 rest ih => simp [splitCommaSpace]
  | case3 c rest h ih ih2 => exact absurd ih ih2
  | case4 c rest h g gs hgs ih =>
    rw [splitCommaSpace, hgs]
    · simp
    · exact h

theorem joinCommaSpace_splitCommaSpace (l : Str) :
    joinCommaSpace (splitCommaSpace l) = l := by
  induction l using splitCommaSpace.induct with
  | case1 => rfl
  | case2 rest ih =>
    rw [splitCommaSpace]
    cases hgs : splitCommaSpace rest with
    | nil => exact absurd hgs (splitCommaSpace_ne_nil rest)
    | cons g gs =>
      rw [hgs] at ih
      show ([] : Str) ++ ',' :: ' ' :: joinCommaSpace (g :: gs) = ',' :: ' ' :: rest
      rw [List.nil_append, ih]
  | case3 c rest h ih ih2 => exact absurd ih (splitCommaSpace_ne_nil rest)
  | case4 c rest h g gs hgs ih =>
    rw [splitCommaSpace, hgs]
    · rw [joinCommaSpace_cons_cons, ← hgs, ih]
    · exact h

/-- **C6.** With the metadata credential present, the resolver returns
absent (`None`) both when the backend reports no match
(`Response == 'False'`) and when the lookup raises any transport or
parsing failure; it never raises to the orchestrator, so a per-title
absence only skips that title in the page and never aborts the batch. -/
theorem C6_resolver_absorbs_failures (key : Str)
    (backend : Str → Except Str OmdbData) (title : Str)
    (h : (∃ e, backend title = .error e) ∨
      (∃ d, backend title = .ok d ∧ d.Response = some "False".data)) :
    fetch_imdb_info (some key) backend title = none ∧
      ∀ (excluded_ids ts : List Str),
        resolveLoop (some key) backend excluded_ids (title :: ts) =
          resolveLoop (some key) backend excluded_ids ts := by
  have hf : fetch_imdb_info (some key) backend title = none := by
    rcases h with ⟨e, he⟩ | ⟨d, hd, hresp⟩
    · simp only [fetch_imdb_info, he]
    · simp only [fetch_imdb_info, hd, if_pos hresp]
  refine ⟨hf, fun excl ts => ?_⟩
  simp only [resolveLoop, hf]

/-- Witness for C6 at a concrete timed-out lookup. -/
theorem C6_witness :
    ((∃ e, timeoutBackend "Inception".data = .error e) ∨
      (∃ d, timeoutBackend "Inception".data = .ok d ∧
        d.Response = some "False".data)) ∧
      fetch_imdb_info (some "o".data) timeoutBackend "Inception".data = none ∧
      resolveLoop (some "o".data) timeoutBackend [] ["Inception".data] =
        resolveLoop (some "o".data) timeoutBackend [] [] :=
  have h : (∃ e, timeoutBackend "Inception".data = .error e) ∨
      (∃ d, timeoutBackend "Inception".data = .ok d ∧
        d.Response = some "False".data) :=
    Or.inl ⟨"requests.exceptions.Timeout".data, rfl⟩
  ⟨h, (C6_resolver_absorbs_failures "o".data timeoutBackend "Inception".data h).1,
    (C6_resolver_absorbs_failures "o".data timeoutBackend "Inception".data h).2 [] []⟩

/-- **C7.** With the metadata credential absent, the resolver always
returns a synthesized degraded record (never absent), whose id is the
title with its spaces stripped and whose plot and genre fields carry the
marker strings signaling the missing configuration. -/
theorem C7_degraded_record (backend : Str → Except Str OmdbData) (title : Str) :
    fetch_imdb_info none backend title = some (degradedInfo title) ∧
      (degradedInfo title).imdb_id = some (removeSpaces title) ∧
      (degradedInfo title).plot =
        some "OMDB API Key is missing, unable to fetch movie metadata.".data ∧
      (degradedInfo title).genres = ["API Key Missing".data] :=
  ⟨rfl, rfl, rfl, rfl⟩

/-- **C8.** On a successful lookup, the resolver splits the multi-valued
`Genre` and `Director` backend fields on the exact separator `", "` into
ordered lists (joining them back with `", "` restores the raw fields),
and normalizes a `Poster` field equal to the sentinel `"N/A"` to absent
while keeping any other poster value. -/
theorem C8_field_mapping (key : Str) (backend : Str → Except Str OmdbData)
    (title : Str) (d : OmdbData) (hok : backend title = .ok d)
    (hfound : d.Response ≠ some "False".data) :
    ∃ r, fetch_imdb_info (some key) backend title = some r ∧
      r.genres = splitCommaSpace (d.Genre.getD []) ∧
      joinCommaSpace r.genres = d.Genre.getD [] ∧
      r.directors = splitCommaSpace (d.Director.getD []) ∧
      joinCommaSpace r.directors = d.Director.getD [] ∧
      (d.Poster = some "N/A".data → r.cover_url = none) ∧
      (∀ p, d.Poster = some p → p ≠ "N/A".data → r.cover_url = some p) := by
  simp only [fetch_imdb_info, hok, if_neg hfound]
  refine ⟨_, rfl, rfl, joinCommaSpace_splitCommaSpace _, rfl,
    joinCommaSpace_splitCommaSpace _, ?_, ?_⟩
  · intro hp
    simp [hp]
  · intro p hp hne
    simp [hp, hne]

/-- Witness for C8 at the concrete successful lookup. -/
theorem C8_witness :
    matrixBackend "The Matrix".data = .ok matrixData ∧
      matrixData.Response ≠ some "False".data ∧
      ∃ r, fetch_imdb_info (some "o".data) matrixBackend "The Matrix".data =
          some r ∧
        r.genres = splitCommaSpace (matrixData.Genre.getD []) ∧
        joinCommaSpace r.genres = matrixData.Genre.getD [] ∧
        r.directors = splitCommaSpace (matrixData.Director.getD []) ∧
        joinCommaSpace r.directors = matrixData.Director.getD [] ∧
        (matrixData.Poster = some "N/A".data → r.cover_url = none) ∧
        (∀ p, matrixData.Poster = some p → p ≠ "N/A".data →
          r.cover_url = some p) :=
  ⟨rfl, by decide,
    C8_field_mapping "o".data matrixBackend "The Matrix".data matrixData rfl
      (by decide)⟩

/-- **C10.** On a successful lookup, each of the two multi-valued fields
independently: if the payload lacks the `Genre` field entirely,
`data.get('Genre', '')` defaults to `''` and `''.split(', ')` is `['']`,
so the record's `genres` is the one-element list containing the empty
string — not the empty list, and not the degraded-mode marker value;
and likewise for a payload lacking `Director`, whose `directors` becomes
`['']` rather than `[]` or the degraded `['N/A']`. -/
theorem C10_missing_field_empty_string (key : Str)
    (backend : Str → Except Str OmdbData) (title : Str) (d : OmdbData)
    (hok : backend title = .ok d) (hfound : d.Response ≠ some "False".data) :
    ∃ r, fetch_imdb_info (some key) backend title = some r ∧
      (d.Genre = none → r.genres = [[]] ∧
        r.genres ≠ [] ∧ r.genres ≠ ["API Key Missing".data]) ∧
      (d.Director = none → r.directors = [[]] ∧
        r.directors ≠ [] ∧ r.directors ≠ ["N/A".data]) := by
  simp only [fetch_imdb_info, hok, if_neg hfound]
  refine ⟨_, rfl, fun hg => ?_, fun hdir => ?_⟩
  · simp only [hg]
    refine ⟨rfl, ?_, ?_⟩
    · show splitCommaSpace (Option.getD none []) ≠ ([] : List Str)
      decide
    · show splitCommaSpace (Option.getD none []) ≠ ["API Key Missing".data]
      decide
  · simp only [hdir]
    refine ⟨rfl, ?_, ?_⟩
    · show splitCommaSpace (Option.getD none []) ≠ ([] : List Str)
      decide
    · show splitCommaSpace (Option.getD none []) ≠ ["N/A".data]
      decide

/-- Witness for C10, applying the theorem to a payload lacking only
`Genre` and to a payload lacking only `Director`. -/
theorem C10_witness :
    (noGenreBackend "Pi".data = .ok noGenreData ∧
      noGenreData.Response ≠ some "False".data ∧
      noGenreData.Genre = none ∧
      ∃ r, fetch_imdb_info (some "o".data) noGenreBackend "Pi".data =
          some r ∧
        r.genres = [[]] ∧ r.genres ≠ [] ∧
        r.genres ≠ ["API Key Missing".data]) ∧
    (noDirectorBackend "Moon".data = .ok noDirectorData ∧
      noDirectorData.Response ≠ some "False".data ∧
      noDirectorData.Director = none ∧
      ∃ r, fetch_imdb_info (some "o".data) noDirectorBackend "Moon".data =
          some r ∧
        r.directors = [[]] ∧ r.directors ≠ [] ∧
        r.directors ≠ ["N/A".data]) := by
  constructor
  · obtain ⟨r, hr, hg, -⟩ := C10_missing_field_empty_string "o".data
      noGenreBackend "Pi".data noGenreData rfl (by decide)
    exact ⟨rfl, by decide, rfl, r, hr, hg rfl⟩
  · obtain ⟨r, hr, -, hdir⟩ := C10_missing_field_empty_string "o".data
      noDirectorBackend "Moon".data noDirectorData rfl (by decide)
    exact ⟨rfl, by decide, rfl, r, hr, hdir rfl⟩

/-!
## Claim C9: digit-dot prefixes outside `1..count` are not markers
-/

theorem natCharsCore_append : ∀ (n fuel : Nat) (acc : Str), n < fuel →
    natCharsCore fuel n acc = natChars n ++ acc := by
  intro n
  induction n using Nat.strong_induction_on with
  | _ n ih =>
    intro fuel acc hfuel
    cases fuel with
    | zero => omega
    | succ fuel =>
      by_cases h10 : n < 10
      · rw [show natCharsCore (fuel + 1) n acc =
            (if n < 10 then Char.ofNat (48 + n) :: acc
             else natCharsCore fuel (n / 10) (Char.ofNat (48 + n % 10) :: acc))
            from rfl, if_pos h10]
        rw [show natChars n =
            (if n < 10 then Char.ofNat (48 + n) :: ([] : Str)
             else natCharsCore n (n / 10) (Char.ofNat (48 + n % 10) :: []))
            from rfl, if_pos h10]
        rfl
      · have hdiv : n / 10 < n := Nat.div_lt_self (by omega) (by omega)
        rw [show natCharsCore (fuel + 1) n acc =
            (if n < 10 then Char.ofNat (48 + n) :: acc
             else natCharsCore fuel (n / 10) (Char.ofNat (48 + n % 10) :: acc))
            from rfl, if_neg h10]
        rw [ih (n / 10) hdiv fuel (Char.ofNat (48 + n % 10) :: acc) (by omega)]
        rw [show natChars n =
            (if n < 10 then Char.ofNat (48 + n) :: ([] : Str)
             else natCharsCore n (n / 10) (Char.ofNat (48 + n % 10) :: []))
            from rfl, if_neg h10]
        rw [ih (n / 10) hdiv n (Char.ofNat (48 + n % 10) :: []) (by omega)]
        simp

/-- The one-step unfolding of `natChars`. -/
theorem natChars_eq (n : Nat) : natChars n =
    if n < 10 then [Char.ofNat (48 + n)]
    else natChars (n / 10) ++ [Char.ofNat (48 + n % 10)] := by
  have h0 : natChars n = (if n < 10 then Char.ofNat (48 + n) :: ([] : Str)
      else natCharsCore n (n / 10) (Char.ofNat (48 + n % 10) :: [])) := rfl
  by_cases h10 : n < 10
  · rw [h0, if_pos h10, if_pos h10]
  · have hdiv : n / 10 < n := Nat.div_lt_self (by omega) (by omega)
    rw [h0, if_neg h10, if_neg h10,
      natCharsCore_append (n / 10) n (Char.ofNat (48 + n % 10) :: []) hdiv]

theorem digit_char_isDig (m : Nat) (hm : m < 10) :
    isDig (Char.ofNat (48 + m)) = true := by
  interval_cases m <;> decide

theorem digit_char_toNat (m : Nat) (hm : m < 10) :
    (Char.ofNat (48 + m)).toNat = 48 + m := by
  interval_cases m <;> decide

theorem natChars_digits (n : Nat) : ∀ c ∈ natChars n, isDig c = true := by
  induction n using Nat.strong_induction_on with
  | _ n ih =>
    intro c hc
    rw [natChars_eq] at hc
    by_cases h10 : n < 10
    · rw [if_pos h10] at hc
      simp only [List.mem_singleton] at hc
      subst hc
      exact digit_char_isDig n h10
    · rw [if_neg h10] at hc
      rcases List.mem_append.mp hc with h | h
      · exact ih (n / 10) (Nat.div_lt_self (by omega) (by omega)) c h
      · simp only [List.mem_singleton] at h
        subst h
        exact digit_char_isDig (n % 10) (Nat.mod_lt _ (by omega))

theorem natVal_append_digit (xs : Str) (c : Char) :
    natVal (xs ++ [c]) = 10 * natVal xs + (c.toNat - 48) := by
  unfold natVal
  rw [List.foldl_append]
  rfl

theorem natVal_natChars (n : Nat) : natVal (natChars n) = n := by
  induction n using Nat.strong_induction_on with
  | _ n ih =>
    rw [natChars_eq]
    by_cases h10 : n < 10
    · rw [if_pos h10]
      show 10 * 0 + ((Char.ofNat (48 + n)).toNat - 48) = n
      rw [digit_char_toNat n h10]
      omega
    · rw [if_neg h10, natVal_append_digit,
        ih (n / 10) (Nat.div_lt_self (by omega) (by omega)),
        digit_char_toNat (n % 10) (Nat.mod_lt _ (by omega))]
      omega

/-- A digit string followed by a separator char determines the digit
string: if `as ++ "."` is a prefix of `bs ++ "." ++ r` and both `as` and
`bs` are all digits, then `as = bs`. -/
theorem digits_dot_eq : ∀ (as bs r : Str),
    (∀ c ∈ as, isDig c = true) → (∀ c ∈ bs, isDig c = true) →
    (as ++ ['.']) <+: (bs ++ '.' :: r) → as = bs := by
  intro as
  induction as with
  | nil =>
    intro bs r _ hbs hpre
    cases bs with
    | nil => rfl
    | cons b bs' =>
      exfalso
      rw [List.nil_append] at hpre
      have h : ('.' : Char) = b := by simpa using hpre
      have hb := hbs b (by simp)
      rw [← h] at hb
      exact absurd hb (by decide)
  | cons a as' ih =>
    intro bs r has hbs hpre
    cases bs with
    | nil =>
      exfalso
      rw [List.nil_append] at hpre
      have h := (List.cons_prefix_cons.mp (by simpa using hpre)).1
      have ha := has a (by simp)
      rw [h] at ha
      exact absurd ha (by decide)
    | cons b bs' =>
      have h := List.cons_prefix_cons.mp (by simpa using hpre)
      rw [h.1, ih bs' r (fun c hc => has c (by simp [hc]))
        (fun c hc => hbs c (by simp [hc])) h.2]

theorem isPyWs_eq_false_of_isDig {c : Char} (h : isDig c = true) :
    isPyWs c = false := by
  have h2 : 48 ≤ c.toNat ∧ c.toNat ≤ 57 := by simpa [isDig] using h
  by_contra hw
  rw [Bool.not_eq_false] at hw
  have hmem : c ∈ pyWsChars := by simpa [isPyWs] using hw
  simp only [pyWsChars, List.mem_cons, List.not_mem_nil, or_false] at hmem
  rcases hmem with rfl | rfl | rfl | rfl | rfl | rfl | rfl | rfl | rfl | rfl |
    rfl | rfl | rfl | rfl <;> simp_all

/-- `pyStripRight` keeps an initial segment that ends in a non-whitespace
character: the trailing strip of `d ++ "." ++ xs` still starts with
`d ++ "."`. -/
theorem pyStripRight_keeps_dot (d xs : Str) :
    (d ++ ['.']) <+: pyStripRight (d ++ '.' :: xs) := by
  unfold pyStripRight
  rw [show (d ++ '.' :: xs).reverse = xs.reverse ++ ('.' :: d.reverse) from by
    simp]
  rw [List.dropWhile_append]
  by_cases he : (xs.reverse.dropWhile isPyWs).isEmpty
  · rw [if_pos he, List.dropWhile_cons_of_neg (by decide)]
    rw [show ('.' :: d.reverse).reverse = d ++ ['.'] from by simp]
  · rw [if_neg he, List.reverse_append,
      show ('.' :: d.reverse).reverse = d ++ ['.'] from by simp]
    exact List.prefix_append _ _

theorem stripMarkerLine_out_of_range (count : Nat) (d rest : Str)
    (hd : d ≠ []) (hdig : ∀ c ∈ d, isDig c = true)
    (hk : ¬ (1 ≤ natVal d ∧ natVal d ≤ count))
    (hline : pyStrip (d ++ '.' :: rest) = d ++ '.' :: rest) :
    stripMarkerLine count (d ++ '.' :: rest) = d ++ '.' :: rest := by
  have hnone : findSep (d ++ '.' :: rest) (seps count) = none := by
    rw [findSep_eq_find?]
    apply List.find?_eq_none.mpr
    intro s hs
    simp only [Bool.not_eq_true]
    rw [← Bool.not_eq_true]
    intro hp
    replace hp := List.isPrefixOf_iff_prefix.mp hp
    rcases List.mem_append.mp hs with hnum | hbul
    · rw [List.mem_map] at hnum
      obtain ⟨i, hi, rfl⟩ := hnum
      have heq := digits_dot_eq (natChars i) d rest (natChars_digits i) hdig hp
      have hval : natVal d = i := by rw [← heq, natVal_natChars]
      rw [List.mem_range'] at hi
      obtain ⟨j, hj, hij⟩ := hi
      exact hk ⟨by omega, by omega⟩
    · cases d with
      | nil => exact hd rfl
      | cons dc d' =>
        have hdc := hdig dc (by simp)
        simp only [List.mem_cons, List.mem_singleton, List.not_mem_nil,
          or_false] at hbul
        rcases hbul with rfl | rfl | rfl <;>
        · obtain ⟨t, ht⟩ := hp
          rw [List.singleton_append] at ht
          injection ht with h1 h2
          rw [← h1] at hdc
          exact absurd hdc (by decide)
  unfold stripMarkerLine
  rw [hline, hnone]

theorem cleanLine_out_of_range (count : Nat) (d rest : Str)
    (hd : d ≠ []) (hdig : ∀ c ∈ d, isDig c = true)
    (hk : ¬ (1 ≤ natVal d ∧ natVal d ≤ count))
    (hline : pyStrip (d ++ '.' :: rest) = d ++ '.' :: rest) :
    (d ++ ['.']) <+: cleanLine count (d ++ '.' :: rest) := by
  unfold cleanLine
  rw [stripMarkerLine_out_of_range count d rest hd hdig hk hline, hline]
  have hdig_id : ∀ c ∈ d, (if c = ' ' then ' ' else c) = c := by
    intro c hc
    have h2 : 48 ≤ c.toNat ∧ c.toNat ≤ 57 := by simpa [isDig] using hdig c hc
    rw [if_neg]
    intro hcontra
    rw [hcontra] at h2
    simp at h2
  have hrepl : replaceNbsp (d ++ '.' :: rest) =
      d ++ '.' :: replaceNbsp rest := by
    unfold replaceNbsp
    rw [List.map_append, List.map_congr_left hdig_id, List.map_id']
    rfl
  rw [hrepl]
  have hleft : pyStripLeft (d ++ '.' :: replaceNbsp rest) =
      d ++ '.' :: replaceNbsp rest := by
    cases d with
    | nil => exact absurd rfl hd
    | cons dc d' =>
      unfold pyStripLeft
      rw [show (dc :: d') ++ '.' :: replaceNbsp rest =
          dc :: (d' ++ '.' :: replaceNbsp rest) from rfl]
      rw [List.dropWhile_cons_of_neg]
      rw [isPyWs_eq_false_of_isDig (hdig dc (by simp))]
      simp
  show (d ++ ['.']) <+: pyStripRight (pyStripLeft (d ++ '.' :: replaceNbsp rest))
  rw [hleft]
  exact pyStripRight_keeps_dot d (replaceNbsp rest)

/-- **C9.** A line that begins with a digit string `d` followed by `"."`,
where the numeric value of `d` lies outside `1..count`, is not treated as
carrying a list marker: the marker-stripping step leaves the line intact
(numeric markers are generated only up to `count`, and no bullet marker
can match a digit), and the cleaned title still starts with the digit-dot
prefix. -/
theorem C9_out_of_range_number_kept (count : Nat) (d rest : Str)
    (hd : d ≠ []) (hdig : ∀ c ∈ d, isDig c = true)
    (hk : ¬ (1 ≤ natVal d ∧ natVal d ≤ count))
    (hline : pyStrip (d ++ '.' :: rest) = d ++ '.' :: rest) :
    stripMarkerLine count (d ++ '.' :: rest) = d ++ '.' :: rest ∧
      (d ++ ['.']) <+: cleanLine count (d ++ '.' :: rest) :=
  ⟨stripMarkerLine_out_of_range count d rest hd hdig hk hline,
    cleanLine_out_of_range count d rest hd hdig hk hline⟩

/-- Witness for C9: `"25. The Heist"` with `count = 10` keeps its
`"25."` prefix. -/
theorem C9_witness :
    ("25".data ≠ ([] : Str)) ∧ (∀ c ∈ "25".data, isDig c = true) ∧
      ¬ (1 ≤ natVal "25".data ∧ natVal "25".data ≤ 10) ∧
      pyStrip ("25".data ++ '.' :: " The Heist".data) =
        "25".data ++ '.' :: " The Heist".data ∧
      (stripMarkerLine 10 ("25".data ++ '.' :: " The Heist".data) =
          "25".data ++ '.' :: " The Heist".data ∧
        ("25".data ++ ['.']) <+:
          cleanLine 10 ("25".data ++ '.' :: " The Heist".data)) :=
  ⟨by decide, by decide, by decide, by decide,
    C9_out_of_range_number_kept 10 "25".data " The Heist".data
      (by decide) (by decide) (by decide) (by decide)⟩

end MRPA
